import Mathlib

/-!
Shallow embedding of the `simple_lexer` calculator (src/parser.rs and
src/eval.rs) in Lean 4.

Conventions of the embedding:
* Machine floats (`f64`) are modelled as exact rationals (`ℚ`): every
  arithmetic operation of the evaluator is an exact rational operation,
  `f64::EPSILON` is the exact rational `2⁻⁵²`, and `std::f64::consts::PI`
  is the exact rational value of the `f64` constant.
* Rust panics (index out of bounds, `usize` underflow, `unwrap` of `None`,
  explicit `panic!` arms) are modelled by `Option`: a result of `none`
  means the Rust code panics.
* The mutable `Parser` struct is threaded explicitly as a state value;
  `HashMap<String, f64>` is modelled by its lookup function
  `String → Option ℚ`.
* Recursive-descent loops are driven by a fuel parameter; the top level
  entry point `Parser.parse` supplies fuel that provably suffices
  (each unit of fuel spent is accompanied by the consumption of at least
  one input token or by one per-line iteration).
-/

namespace SimpleLexer

/-- Modelled from the spec: the token kinds of the lexer (src/lexer.rs is
not part of the sources; the variants are exactly those consumed by
`parser.rs`). -/
inductive TokenType where
  | Number
  | Identifier
  | Plus
  | Minus
  | Times
  | Div
  | GreaterThan
  | GreaterThanOrEqual
  | LessThan
  | LessThanOrEqual
  | Equal
  | Assign
  | LeftParenthesis
  | RightParenthesis
deriving DecidableEq, Repr

/-- Modelled from the spec: the `Token` record produced by the lexer
(src/lexer.rs is not part of the sources; the fields are exactly those the
parser destructures: `ttype`, `value`, `line`, `column`). -/
structure Token where
  ttype : TokenType
  value : String
  line : Nat
  column : Nat
deriving DecidableEq, Repr

/-- `pub struct Location(pub usize, pub usize)` — a (line, column) pair.
The Rust fields are positional (`.0`, `.1`); we name them. -/
structure Location where
  line : Nat
  column : Nat
deriving DecidableEq, Repr

mutual
/-- The `NodeType` enum of src/parser.rs. `f64` payloads are rationals. -/
inductive NodeType where
  | Identifier : String → NodeType
  | Number : ℚ → NodeType
  | Sum : ParseNode → ParseNode → NodeType
  | Substraction : ParseNode → ParseNode → NodeType
  | Multiplication : ParseNode → ParseNode → NodeType
  | Division : ParseNode → ParseNode → NodeType
  | GreaterThan : ParseNode → ParseNode → NodeType
  | GreaterThanOrEqual : ParseNode → ParseNode → NodeType
  | LessThan : ParseNode → ParseNode → NodeType
  | LessThanOrEqual : ParseNode → ParseNode → NodeType
  | Equal : ParseNode → ParseNode → NodeType
  | Assignment : String → ParseNode → NodeType
  | Root : List ParseNode → NodeType

/-- The `ParseNode` struct of src/parser.rs: a node type plus a location. -/
inductive ParseNode where
  | mk : NodeType → Location → ParseNode
end

/-- Field accessor mirroring `ParseNode::ntype`. -/
def ParseNode.ntype : ParseNode → NodeType
  | .mk nt _ => nt

/-- Field accessor mirroring `ParseNode::location`. -/
def ParseNode.location : ParseNode → Location
  | .mk _ loc => loc

/-- The `ParsingError` enum of src/parser.rs. -/
inductive ParsingError where
  | UnexpectedToken : String → Location → ParsingError
  | UnexpectedEndOfLine : Location → ParsingError
  | ExpectedCloseParen : String → Location → ParsingError
  | MultipleErrors : List ParsingError → ParsingError

/-- `ParseNode::empty_root()`. -/
def ParseNode.empty_root : ParseNode :=
  .mk (.Root []) ⟨0, 0⟩

/-- Models `value.parse::<f64>().unwrap()` as used by `token_to_node` on
`Number` tokens, with floats as exact rationals: an optional run of digits,
an optional `.`, and an optional run of fraction digits (the shapes the
lexer produces for `Number` tokens).  `none` models a parse failure
(and hence a panic of the `unwrap`). -/
def parseDecimal (s : String) : Option ℚ :=
  let cs := s.toList
  if cs = [] then none
  else if cs.all (fun c => c.isDigit ∨ c = '.') ∧ (cs.filter (· = '.')).length ≤ 1 then
    let intPart := cs.takeWhile (· ≠ '.')
    let fracPart := (cs.dropWhile (· ≠ '.')).drop 1
    let intVal : Nat := intPart.foldl (fun acc c => 10 * acc + (c.toNat - '0'.toNat)) 0
    let fracVal : Nat := fracPart.foldl (fun acc c => 10 * acc + (c.toNat - '0'.toNat)) 0
    some ((intVal : ℚ) + (fracVal : ℚ) / (10 : ℚ) ^ fracPart.length)
  else none

/-- The `Parser` struct of src/parser.rs: the borrowed token slice plus the
mutable cursor fields `position` and `line`. -/
structure Parser where
  input : List Token
  position : Nat
  line : Nat
deriving DecidableEq, Repr

namespace Parser

/-- `Parser::new`. -/
def new (input : List Token) : Parser :=
  { input := input, position := 0, line := 0 }

/-- A parse step outcome together with the parser state after it; `none`
models a Rust panic. -/
abbrev Step := Option (Except ParsingError ParseNode × Parser)

/-- Rust's `OptParseResult` (an optional parse outcome), with the panic
marker inside: outer `none` = the alternative did not apply. -/
abbrev OptStep := Option Step

/-- `Parser::look_ahead`. -/
def look_ahead (p : Parser) (count : Nat) : Option Token :=
  (p.input[p.position + count]?).filter fun token => token.line = p.line

/-- `Parser::current`. -/
def current (p : Parser) : Option Token :=
  p.look_ahead 0

/-- `Parser::last_token`: `&self.input[self.position - 1]`.  When
`position = 0` the `usize` subtraction underflows and the indexing panics
(in both debug and release profiles); `none` models that panic. -/
def last_token (p : Parser) : Option Token :=
  if p.position = 0 then none else p.input[p.position - 1]?

/-- `Parser::move_forward`. -/
def move_forward (p : Parser) (count : Nat) : Parser :=
  { p with position := p.position + count }

/-- `Parser::advance`. -/
def advance (p : Parser) : Parser :=
  p.move_forward 1

/-- `Parser::check_current`: returns the current token when it has the
requested type, advancing past it when `advance` is set. -/
def check_current (p : Parser) (token_type : TokenType) (adv : Bool) :
    Option Token × Parser :=
  match p.current with
  | some token =>
    if token.ttype = token_type then (some token, if adv then p.advance else p)
    else (none, p)
  | none => (none, p)

/-- `Parser::check_ahead`. -/
def check_ahead (p : Parser) (token_type : TokenType) (count : Nat) :
    Option Token :=
  match p.look_ahead count with
  | some token => if token.ttype = token_type then some token else none
  | none => none

/-- `Parser::check_current_in_list`: `find_map` over `check_current` for
each type in the list; equivalently, the current token matches iff its type
is in the list, and the cursor advances only on a match. -/
def check_current_in_list (p : Parser) (token_types : List TokenType)
    (adv : Bool) : Option Token × Parser :=
  match p.current with
  | some token =>
    if token.ttype ∈ token_types then
      (some token, if adv then p.advance else p)
    else (none, p)
  | none => (none, p)

/-- `Parser::check_assignment_op`. -/
def check_assignment_op (p : Parser) : Option Token :=
  p.check_ahead TokenType.Assign 1

/-- The loop body of `Parser::move_to_next_line`, driven by fuel so that it
is structurally recursive (and hence kernel-reducible).  The loop advances
the cursor once per iteration and stops at the end of the input, so
`input.length + 1 - position` units of fuel always suffice; with that much
fuel the fuel never reaches `0` while a token is still available. -/
def move_to_next_line_go : Nat → Parser → Parser
  | 0, p => p
  | fuel + 1, p =>
    match p.input[p.position]? with
    | some next =>
      if next.line = p.line then p else move_to_next_line_go fuel p.advance
    | none => p

/-- `Parser::move_to_next_line`: skip tokens until one on the current line
(or the end of input) is reached. -/
def move_to_next_line (p : Parser) : Parser :=
  move_to_next_line_go (p.input.length + 1 - p.position) p

/-- `Parser::token_to_node`; `none` models the `panic!` arm and the
`unwrap` of the number parse. -/
def token_to_node (t : Token) : Option ParseNode :=
  match t.ttype with
  | .Identifier => some (.mk (.Identifier t.value) ⟨t.line, t.column⟩)
  | .Number => (parseDecimal t.value).map fun q => .mk (.Number q) ⟨t.line, t.column⟩
  | _ => none

/-- `Parser::token_to_bin_op_node`; `none` models the `panic!` arm. -/
def token_to_bin_op_node (t : Token) (left_child right_child : ParseNode) :
    Option ParseNode :=
  let loc : Location := ⟨t.line, t.column⟩
  match t.ttype with
  | .Plus => some (.mk (.Sum left_child right_child) loc)
  | .Minus => some (.mk (.Substraction left_child right_child) loc)
  | .Times => some (.mk (.Multiplication left_child right_child) loc)
  | .Div => some (.mk (.Division left_child right_child) loc)
  | .GreaterThan => some (.mk (.GreaterThan left_child right_child) loc)
  | .GreaterThanOrEqual => some (.mk (.GreaterThanOrEqual left_child right_child) loc)
  | .LessThan => some (.mk (.LessThan left_child right_child) loc)
  | .LessThanOrEqual => some (.mk (.LessThanOrEqual left_child right_child) loc)
  | .Equal => some (.mk (.Equal left_child right_child) loc)
  | _ => none

/-- `Parser::token_to_assignment_node`; `none` models the `panic!` arms. -/
def token_to_assignment_node (t : Token) (left_child right_child : ParseNode) :
    Option ParseNode :=
  match t.ttype, left_child.ntype with
  | .Assign, .Identifier value =>
    some (.mk (.Assignment value right_child) ⟨t.line, t.column⟩)
  | _, _ => none

/-- `Parser::create_unexpected_error`; `none` models the panic of
`last_token` when nothing was consumed yet. -/
def create_unexpected_error (p : Parser) : Option ParsingError :=
  match p.current with
  | some token => some (.UnexpectedToken token.value ⟨token.line, token.column⟩)
  | none =>
    (p.last_token).map fun t =>
      .UnexpectedEndOfLine ⟨t.line, t.column + t.value.length - 1⟩

/-- `Parser::create_close_paren_error`; `none` models the panic of
`last_token`. -/
def create_close_paren_error (p : Parser) : Option ParsingError :=
  match p.current with
  | some token => some (.ExpectedCloseParen token.value ⟨token.line, token.column⟩)
  | none =>
    (p.last_token).map fun t =>
      .ExpectedCloseParen "EOL" ⟨t.line, t.column + t.value.length - 1⟩

/-- `Parser::parse_number`. -/
def parse_number (p : Parser) (adv : Bool) : OptStep :=
  match p.check_current TokenType.Number adv with
  | (some token, p1) => some ((token_to_node token).map fun n => (.ok n, p1))
  | (none, _) => none

/-- `Parser::parse_identifier`. -/
def parse_identifier (p : Parser) (adv : Bool) : OptStep :=
  match p.check_current TokenType.Identifier adv with
  | (some token, p1) => some ((token_to_node token).map fun n => (.ok n, p1))
  | (none, _) => none

/-- `Parser::check_open_paren`. -/
def check_open_paren (p : Parser) (adv : Bool) : Option Token × Parser :=
  p.check_current TokenType.LeftParenthesis adv

/-- `Parser::expect_close_paren`. -/
def expect_close_paren (p : Parser) (node : ParseNode) : Step :=
  match p.check_current TokenType.RightParenthesis true with
  | (some _, p1) => some (.ok node, p1)
  | (none, p1) => (create_close_paren_error p1).map fun e => (.error e, p1)

mutual

/-- `Parser::parse_factor`: a number, an identifier, or a parenthesized
expression; otherwise the unexpected-token/end-of-line error. -/
def parse_factor : Nat → Parser → Step
  | 0, _ => none
  | fuel + 1, p =>
    match parse_number p true with
    | some r => r
    | none =>
      match parse_identifier p true with
      | some r => r
      | none =>
        match parse_expr_in_parens fuel p true with
        | some r => r
        | none =>
          match create_unexpected_error p with
          | some e => some (.error e, p)
          | none => none

/-- `Parser::parse_expr_in_parens`: if an open parenthesis is present,
parse a right-expression and require the closing parenthesis. -/
def parse_expr_in_parens : Nat → Parser → Bool → OptStep
  | 0, _, _ => some none
  | fuel + 1, p, adv =>
    match check_open_paren p adv with
    | (some _, p1) =>
      some (match parse_right_expr fuel p1 with
        | some (.ok node, p2) => expect_close_paren p2 node
        | other => other)
    | (none, _) => none

/-- `Parser::parse_term`: a factor followed by any number of `*`/`/`
factors (left-associative). -/
def parse_term : Nat → Parser → Step
  | 0, _ => none
  | fuel + 1, p =>
    match parse_factor fuel p with
    | some (.ok node, p1) => parse_term_go fuel node p1
    | other => other

/-- The `loop` inside `Parser::parse_term`. -/
def parse_term_go : Nat → ParseNode → Parser → Step
  | 0, _, _ => none
  | fuel + 1, node, p =>
    match check_current_in_list p [TokenType.Times, TokenType.Div] true with
    | (some token, p1) =>
      match parse_factor fuel p1 with
      | some (.ok right_child, p2) =>
        match token_to_bin_op_node token node right_child with
        | some node2 => parse_term_go fuel node2 p2
        | none => none
      | other => other
    | (none, p1) => some (.ok node, p1)

/-- `Parser::parse_comp_term`: a term followed by any number of `+`/`-`
terms (left-associative). -/
def parse_comp_term : Nat → Parser → Step
  | 0, _ => none
  | fuel + 1, p =>
    match parse_term fuel p with
    | some (.ok node, p1) => parse_comp_term_go fuel node p1
    | other => other

/-- The `loop` inside `Parser::parse_comp_term`. -/
def parse_comp_term_go : Nat → ParseNode → Parser → Step
  | 0, _, _ => none
  | fuel + 1, node, p =>
    match check_current_in_list p [TokenType.Plus, TokenType.Minus] true with
    | (some token, p1) =>
      match parse_term fuel p1 with
      | some (.ok right_child, p2) =>
        match token_to_bin_op_node token node right_child with
        | some node2 => parse_comp_term_go fuel node2 p2
        | none => none
      | other => other
    | (none, p1) => some (.ok node, p1)

/-- `Parser::parse_right_expr`: a comp-term followed by at most one
comparison operator and a second comp-term. -/
def parse_right_expr : Nat → Parser → Step
  | 0, _ => none
  | fuel + 1, p =>
    match parse_comp_term fuel p with
    | some (.ok node, p1) =>
      match check_current_in_list p1
          [TokenType.GreaterThan, TokenType.GreaterThanOrEqual,
           TokenType.LessThan, TokenType.LessThanOrEqual,
           TokenType.Equal] true with
      | (some token, p2) =>
        match parse_comp_term fuel p2 with
        | some (.ok right_child, p3) =>
          (token_to_bin_op_node token node right_child).map fun n => (.ok n, p3)
        | other => other
      | (none, p2) => some (.ok node, p2)
    | other => other

end

/-- `Parser::parse_expr`: an assignment when the current token is an
identifier and the next one is `=` (detected by lookahead without
consuming), otherwise a right-expression. -/
def parse_expr (fuel : Nat) (p : Parser) : Step :=
  match parse_identifier p false with
  | some (some (.ok id_node, p0)) =>
    match check_assignment_op p0 with
    | some assign_token =>
      match token_to_assignment_node assign_token id_node ParseNode.empty_root with
      | some (.mk (.Assignment id _) location) =>
        let p1 := p0.move_forward 2
        match parse_right_expr fuel p1 with
        | some (.ok right_expr, p2) =>
          some (.ok (.mk (.Assignment id right_expr) location), p2)
        | other => other
      | _ => none
    | none => parse_right_expr fuel p
  | some none => none
  | some (some (.error _, _)) => parse_right_expr fuel p
  | none => parse_right_expr fuel p

/-- `Parser::parse_line`: parse one expression, require it to consume the
whole line, bump the line counter, and resynchronize past the rest of the
line on error. -/
def parse_line (fuel : Nat) (p : Parser) : Step :=
  match parse_expr fuel p with
  | some (.ok node, p1) =>
    match p1.current with
    | none => some (.ok node, { p1 with line := p1.line + 1 })
    | some _ =>
      match create_unexpected_error p1 with
      | some e =>
        some (.error e, ({ p1 with line := p1.line + 1 } : Parser).move_to_next_line)
      | none => none
  | some (.error e, p1) =>
    some (.error e, ({ p1 with line := p1.line + 1 } : Parser).move_to_next_line)
  | none => none

/-- The fuel handed to `parse_expr` for one line: each unit of fuel spent
inside the recursive descent is accompanied by the consumption of one
input token or one step down the factor/term/comp-term/right-expr chain
(at most six deep per token), so this always suffices. -/
def expr_fuel (p : Parser) : Nat :=
  8 * (p.input.length + 1)

/-- The `loop` inside `Parser::parse`: collect one result per line until
the cursor reaches the end of the input.  The fuel bounds the number of
iterations; every iteration either consumes a token or raises the line
counter toward the next token's line, so
`input.length + (max line) + 2` iterations always suffice. -/
def parse_go : Nat → Parser → Option (List (Except ParsingError ParseNode))
  | 0, _ => none
  | fuel + 1, p =>
    match parse_line (expr_fuel p) p with
    | some (result, p1) =>
      if p1.position ≥ p1.input.length then some [result]
      else (parse_go fuel p1).map fun results => result :: results
    | none => none

/-- One step of the fold at the end of `Parser::parse`; the accumulator is
`none` once a `panic!` arm has been hit. -/
def fold_step (acc : Option (Except ParsingError ParseNode))
    (line_result : Except ParsingError ParseNode) :
    Option (Except ParsingError ParseNode) :=
  match acc with
  | none => none
  | some result =>
    match result, line_result with
    | .ok (.mk (.Root nodes) location), .ok node =>
      some (.ok (.mk (.Root (nodes ++ [node])) location))
    | .ok _, .error err => some (.error (.MultipleErrors [err]))
    | .error error, .ok _ => some (.error error)
    | .error (.MultipleErrors errors), .error err =>
      some (.error (.MultipleErrors (errors ++ [err])))
    | _, _ => none

/-- The fold at the end of `Parser::parse`, over the per-line results. -/
def fold_results (results : List (Except ParsingError ParseNode)) :
    Option (Except ParsingError ParseNode) :=
  results.foldl fold_step (some (.ok ParseNode.empty_root))

/-- The fuel for the per-line loop of `Parser::parse`. -/
def loop_fuel (p : Parser) : Nat :=
  p.input.length + (p.input.map Token.line).foldr max 0 + 2

/-- `Parser::parse`: empty input yields an empty root; otherwise parse the
input line by line and fold the per-line results into either a `Root` node
or a `MultipleErrors` aggregate.  `none` models a panic. -/
def parse (p : Parser) : Option (Except ParsingError ParseNode) :=
  if p.input.isEmpty then some (.ok ParseNode.empty_root)
  else (parse_go (loop_fuel p) p).bind fold_results

end Parser

/-! ## Evaluator (src/eval.rs) -/

/-- The `EvalError` enum of src/eval.rs. -/
inductive EvalError where
  | Unimplemented : String → EvalError
  | SymbolNotFound : String → Location → EvalError
deriving DecidableEq, Repr

/-- `HashMap<String, f64>` modelled by its lookup function. -/
def SymbolTable : Type := String → Option ℚ

/-- `HashMap::insert`: bind `key`, overwriting any prior binding. -/
def SymbolTable.insert (syms : SymbolTable) (key : String) (val : ℚ) :
    SymbolTable :=
  fun name => if name = key then some val else syms name

/-- `std::f64::EPSILON` (= 2⁻⁵²) as an exact rational. -/
def EPSILON : ℚ := 1 / 2 ^ 52

/-- `std::f64::consts::PI`: the exact rational value of the `f64` nearest
to π, namely 884279719003555 · 2⁻⁴⁸. -/
def PI_f64 : ℚ := 884279719003555 / 281474976710656

namespace EvalContext

/-- `EvalContext::new`: an empty symbol table. -/
def new : SymbolTable := fun _ => none

/-- `EvalContext::populated` / `populate_symbol_table`: the fresh session
table holding the built-in constant `PI`. -/
def populated : SymbolTable := SymbolTable.insert new "PI" PI_f64

mutual

/-- `EvalContext::eval`, threading the mutable symbol table explicitly.
The fuel only drives the structural recursion (one unit per nested call);
`none` models a panic (including the `res.unwrap()` on an empty `Root`).
All claims either supply ample fuel or quantify over it. -/
def eval : Nat → SymbolTable → ParseNode → Option (Except EvalError (ℚ × SymbolTable))
  | 0, _, _ => none
  | fuel + 1, syms, .mk ntype location =>
    match ntype with
    | .Root nodes =>
      match eval_root fuel syms nodes none with
      | some (.ok (some res, syms1)) => some (.ok (res, syms1))
      | some (.ok (none, _)) => none
      | some (.error e) => some (.error e)
      | none => none
    | .Number num => some (.ok (num, syms))
    | .Sum left right => perform_arithmetic_op fuel syms left right (· + ·)
    | .Substraction left right => perform_arithmetic_op fuel syms left right (· - ·)
    | .Multiplication left right => perform_arithmetic_op fuel syms left right (· * ·)
    | .Division left right => perform_arithmetic_op fuel syms left right (· / ·)
    | .GreaterThan left right =>
      perform_comparison_op fuel syms left right fun l r => decide (l > r)
    | .GreaterThanOrEqual left right =>
      perform_comparison_op fuel syms left right fun l r => decide (l ≥ r)
    | .LessThan left right =>
      perform_comparison_op fuel syms left right fun l r => decide (l < r)
    | .LessThanOrEqual left right =>
      perform_comparison_op fuel syms left right fun l r => decide (l ≤ r)
    | .Equal left right =>
      perform_comparison_op fuel syms left right fun l r => decide (|l - r| < EPSILON)
    | .Assignment identifier right =>
      match eval fuel syms right with
      | some (.ok (val, syms1)) => some (.ok (val, syms1.insert identifier val))
      | other => other
    | .Identifier identifier =>
      match syms identifier with
      | some v => some (.ok (v, syms))
      | none => some (.error (.SymbolNotFound identifier location))

/-- The `for` loop of the `Root` arm of `EvalContext::eval`: evaluate each
statement in order, remembering the last result (`none` = no statement
evaluated yet, which makes the final `res.unwrap()` panic). -/
def eval_root : Nat → SymbolTable → List ParseNode → Option ℚ →
    Option (Except EvalError (Option ℚ × SymbolTable))
  | 0, _, _, _ => none
  | _ + 1, syms, [], res => some (.ok (res, syms))
  | fuel + 1, syms, node :: rest, _ =>
    match eval fuel syms node with
    | some (.ok (v, syms1)) => eval_root fuel syms1 rest (some v)
    | some (.error e) => some (.error e)
    | none => none

/-- `EvalContext::perform_arithmetic_op`: evaluate both children, left
before right, then apply `op`. -/
def perform_arithmetic_op : Nat → SymbolTable → ParseNode → ParseNode →
    (ℚ → ℚ → ℚ) → Option (Except EvalError (ℚ × SymbolTable))
  | 0, _, _, _, _ => none
  | fuel + 1, syms, left_child, right_child, op =>
    match eval fuel syms left_child with
    | some (.ok (left_res, syms1)) =>
      match eval fuel syms1 right_child with
      | some (.ok (right_res, syms2)) => some (.ok (op left_res right_res, syms2))
      | other => other
    | other => other

/-- `EvalContext::perform_comparison_op`: evaluate both children, left
before right, then yield `1.0` when `op` holds and `0.0` otherwise. -/
def perform_comparison_op : Nat → SymbolTable → ParseNode → ParseNode →
    (ℚ → ℚ → Bool) → Option (Except EvalError (ℚ × SymbolTable))
  | 0, _, _, _, _ => none
  | fuel + 1, syms, left_child, right_child, op =>
    match eval fuel syms left_child with
    | some (.ok (left_res, syms1)) =>
      match eval fuel syms1 right_child with
      | some (.ok (right_res, syms2)) =>
        some (.ok ((if op left_res right_res then 1 else 0), syms2))
      | other => other
    | other => other

end

/-- The statement loop of `EvalContext::eval_and_print`, returning the
sequence of printed per-statement results instead of printing.  `fuel` is
the recursion budget handed to each statement's `eval`; any value at least
twice the statement's tree size lets the evaluation run to completion. -/
def eval_and_print_go (fuel : Nat) : SymbolTable → List ParseNode →
    Option (Except EvalError (List ℚ))
  | _, [] => some (.ok [])
  | syms, node :: rest =>
    match eval fuel syms node with
    | some (.ok (v, syms1)) =>
      match eval_and_print_go fuel syms1 rest with
      | some (.ok vs) => some (.ok (v :: vs))
      | other => other
    | some (.error e) => some (.error e)
    | none => none

/-- `EvalContext::eval_and_print`: evaluate each top-level statement of a
`Root` in order against a freshly populated session table; `none` models
the `panic!` on a non-`Root` argument.  The result list collects the
values the Rust code prints, one per statement. -/
def eval_and_print (fuel : Nat) (root : ParseNode) :
    Option (Except EvalError (List ℚ)) :=
  match root with
  | .mk (.Root nodes) _ => eval_and_print_go fuel populated nodes
  | _ => none

end EvalContext

/-! ## Concrete inputs used by the claims

Token lists written out exactly as the lexer produces them for the quoted
source strings: one token per lexeme, `line`/`column` the `0`-based
position of the lexeme's first character. -/

/-- The errors among a list of per-line parse results, in order. -/
def Parser.errs_of (results : List (Except ParsingError ParseNode)) :
    List ParsingError :=
  results.filterMap fun r =>
    match r with
    | .error e => some e
    | .ok _ => none

/-- Tokens of `"hello ="`. -/
def tokens_hello_eq : List Token :=
  [⟨.Identifier, "hello", 0, 0⟩, ⟨.Assign, "=", 0, 6⟩]

/-- Tokens of `"hello =\n="` (two independently failing lines). -/
def tokens_two_bad_lines : List Token :=
  [⟨.Identifier, "hello", 0, 0⟩, ⟨.Assign, "=", 0, 6⟩, ⟨.Assign, "=", 1, 0⟩]

/-- Tokens of `"hello = 5.0\n2.3 + hello"`. -/
def tokens_assign_then_use : List Token :=
  [⟨.Identifier, "hello", 0, 0⟩, ⟨.Assign, "=", 0, 6⟩, ⟨.Number, "5.0", 0, 8⟩,
   ⟨.Number, "2.3", 1, 0⟩, ⟨.Plus, "+", 1, 4⟩, ⟨.Identifier, "hello", 1, 6⟩]

/-- The tree `"hello = 5.0\n2.3 + hello"` parses to. -/
def root_assign_then_use : ParseNode :=
  .mk (.Root [
    .mk (.Assignment "hello" (.mk (.Number 5) ⟨0, 8⟩)) ⟨0, 6⟩,
    .mk (.Sum (.mk (.Number (23/10)) ⟨1, 0⟩)
      (.mk (.Identifier "hello") ⟨1, 6⟩)) ⟨1, 4⟩]) ⟨0, 0⟩

/-- Tokens of `"(6 * 5) / 4 + 2"`. -/
def tokens_precedence : List Token :=
  [⟨.LeftParenthesis, "(", 0, 0⟩, ⟨.Number, "6", 0, 1⟩, ⟨.Times, "*", 0, 3⟩,
   ⟨.Number, "5", 0, 5⟩, ⟨.RightParenthesis, ")", 0, 6⟩, ⟨.Div, "/", 0, 8⟩,
   ⟨.Number, "4", 0, 10⟩, ⟨.Plus, "+", 0, 12⟩, ⟨.Number, "2", 0, 14⟩]

/-- The tree `"(6 * 5) / 4 + 2"` parses to. -/
def root_precedence : ParseNode :=
  .mk (.Root [
    .mk (.Sum
      (.mk (.Division
        (.mk (.Multiplication
          (.mk (.Number 6) ⟨0, 1⟩)
          (.mk (.Number 5) ⟨0, 5⟩)) ⟨0, 3⟩)
        (.mk (.Number 4) ⟨0, 10⟩)) ⟨0, 8⟩)
      (.mk (.Number 2) ⟨0, 14⟩)) ⟨0, 12⟩]) ⟨0, 0⟩

/-- Tokens of `"2 + 3 * 4"`. -/
def tokens_add_mul : List Token :=
  [⟨.Number, "2", 0, 0⟩, ⟨.Plus, "+", 0, 2⟩, ⟨.Number, "3", 0, 4⟩,
   ⟨.Times, "*", 0, 6⟩, ⟨.Number, "4", 0, 8⟩]

/-- Tokens of `"2 * 3 + 4"`. -/
def tokens_mul_add : List Token :=
  [⟨.Number, "2", 0, 0⟩, ⟨.Times, "*", 0, 2⟩, ⟨.Number, "3", 0, 4⟩,
   ⟨.Plus, "+", 0, 6⟩, ⟨.Number, "4", 0, 8⟩]

/-- Tokens of `"1 + 2 < 3 + 4"`. -/
def tokens_add_lt_add : List Token :=
  [⟨.Number, "1", 0, 0⟩, ⟨.Plus, "+", 0, 2⟩, ⟨.Number, "2", 0, 4⟩,
   ⟨.LessThan, "<", 0, 6⟩, ⟨.Number, "3", 0, 8⟩, ⟨.Plus, "+", 0, 10⟩,
   ⟨.Number, "4", 0, 12⟩]

/-- Tokens of `"8 / 4 / 2"`. -/
def tokens_div_div : List Token :=
  [⟨.Number, "8", 0, 0⟩, ⟨.Div, "/", 0, 2⟩, ⟨.Number, "4", 0, 4⟩,
   ⟨.Div, "/", 0, 6⟩, ⟨.Number, "2", 0, 8⟩]

/-- Tokens of `"8 - 4 - 2"`. -/
def tokens_sub_sub : List Token :=
  [⟨.Number, "8", 0, 0⟩, ⟨.Minus, "-", 0, 2⟩, ⟨.Number, "4", 0, 4⟩,
   ⟨.Minus, "-", 0, 6⟩, ⟨.Number, "2", 0, 8⟩]

/-- Tokens of `"3.2 == 3.2"`. -/
def tokens_eq_same : List Token :=
  [⟨.Number, "3.2", 0, 0⟩, ⟨.Equal, "==", 0, 4⟩, ⟨.Number, "3.2", 0, 7⟩]

/-- The tree `"3.2 == 3.2"` parses to. -/
def root_eq_same : ParseNode :=
  .mk (.Root [
    .mk (.Equal (.mk (.Number (16/5)) ⟨0, 0⟩)
      (.mk (.Number (16/5)) ⟨0, 7⟩)) ⟨0, 4⟩]) ⟨0, 0⟩

/-- An `Equal` comparison of two literals that differ by `2⁻⁵³`, i.e. by
less than `f64::EPSILON`: distinguishes epsilon-tolerant equality from
exact equality. -/
def root_eq_close : ParseNode :=
  .mk (.Root [
    .mk (.Equal (.mk (.Number 1) ⟨0, 0⟩)
      (.mk (.Number (1 + 1/2^53)) ⟨0, 5⟩)) ⟨0, 2⟩]) ⟨0, 0⟩

/-- Tokens of `"3.2 > 2.0"`. -/
def tokens_gt_true : List Token :=
  [⟨.Number, "3.2", 0, 0⟩, ⟨.GreaterThan, ">", 0, 4⟩, ⟨.Number, "2.0", 0, 6⟩]

/-- Tokens of `"3.2 > 5.0"`. -/
def tokens_gt_false : List Token :=
  [⟨.Number, "3.2", 0, 0⟩, ⟨.GreaterThan, ">", 0, 4⟩, ⟨.Number, "5.0", 0, 6⟩]

/-- The tree `"3.2 > 2.0"` parses to. -/
def root_gt_true : ParseNode :=
  .mk (.Root [
    .mk (.GreaterThan (.mk (.Number (16/5)) ⟨0, 0⟩)
      (.mk (.Number 2) ⟨0, 6⟩)) ⟨0, 4⟩]) ⟨0, 0⟩

/-- The tree `"3.2 > 5.0"` parses to. -/
def root_gt_false : ParseNode :=
  .mk (.Root [
    .mk (.GreaterThan (.mk (.Number (16/5)) ⟨0, 0⟩)
      (.mk (.Number 5) ⟨0, 6⟩)) ⟨0, 4⟩]) ⟨0, 0⟩

/-- Tokens of `"(((((3)))))"`. -/
def tokens_deep_parens : List Token :=
  [⟨.LeftParenthesis, "(", 0, 0⟩, ⟨.LeftParenthesis, "(", 0, 1⟩,
   ⟨.LeftParenthesis, "(", 0, 2⟩, ⟨.LeftParenthesis, "(", 0, 3⟩,
   ⟨.LeftParenthesis, "(", 0, 4⟩, ⟨.Number, "3", 0, 5⟩,
   ⟨.RightParenthesis, ")", 0, 6⟩, ⟨.RightParenthesis, ")", 0, 7⟩,
   ⟨.RightParenthesis, ")", 0, 8⟩, ⟨.RightParenthesis, ")", 0, 9⟩,
   ⟨.RightParenthesis, ")", 0, 10⟩]

/-- An opening-parenthesis token on line `0`. -/
def lpTok : Token := ⟨.LeftParenthesis, "(", 0, 0⟩

/-- A closing-parenthesis token on line `0`. -/
def rpTok : Token := ⟨.RightParenthesis, ")", 0, 0⟩

/-- A single factor token wrapped in `n` matched parenthesis pairs, all on
line `0` (the claim quantifies over the nesting depth, so the columns of
the parentheses are immaterial). -/
def paren_wrap (n : Nat) (t : Token) : List Token :=
  List.replicate n lpTok ++ t :: List.replicate n rpTok

/-! ## Validation of the embedding against the Rust unit tests

These reproduce assertions of `mod tests` in src/parser.rs verbatim, as a
check that the embedding agrees with the source on independent inputs. -/

/-- `test_parse_trailing_token`: `"3.14 hello"` fails with
`UnexpectedToken("hello", Location(0, 5))`. -/
theorem model_check_trailing_token :
    Parser.parse (Parser.new
      [⟨.Number, "3.14", 0, 0⟩, ⟨.Identifier, "hello", 0, 5⟩]) =
      some (.error (.MultipleErrors [.UnexpectedToken "hello" ⟨0, 5⟩])) := by
  with_unfolding_all rfl

/-- `test_fn_expr_in_unclosed_paren`: `"(hello"` fails with
`ExpectedCloseParen("EOL", Location(0, 5))`. -/
theorem model_check_unclosed_paren :
    Parser.parse (Parser.new
      [⟨.LeftParenthesis, "(", 0, 0⟩, ⟨.Identifier, "hello", 0, 1⟩]) =
      some (.error (.MultipleErrors [.ExpectedCloseParen "EOL" ⟨0, 5⟩])) := by
  with_unfolding_all rfl

/-- `test_parse_multiple_lines`: `"resp = (hello - world)\n3.14 == hello"`
parses to a two-statement root. -/
theorem model_check_multiple_lines :
    Parser.parse (Parser.new
      [⟨.Identifier, "resp", 0, 0⟩, ⟨.Assign, "=", 0, 5⟩,
       ⟨.LeftParenthesis, "(", 0, 7⟩, ⟨.Identifier, "hello", 0, 8⟩,
       ⟨.Minus, "-", 0, 14⟩, ⟨.Identifier, "world", 0, 16⟩,
       ⟨.RightParenthesis, ")", 0, 21⟩,
       ⟨.Number, "3.14", 1, 0⟩, ⟨.Equal, "==", 1, 5⟩,
       ⟨.Identifier, "hello", 1, 8⟩]) =
      some (.ok (.mk (.Root [
        .mk (.Assignment "resp"
          (.mk (.Substraction (.mk (.Identifier "hello") ⟨0, 8⟩)
            (.mk (.Identifier "world") ⟨0, 16⟩)) ⟨0, 14⟩)) ⟨0, 5⟩,
        .mk (.Equal (.mk (.Number (157/50)) ⟨1, 0⟩)
          (.mk (.Identifier "hello") ⟨1, 8⟩)) ⟨1, 5⟩]) ⟨0, 0⟩)) := by
  with_unfolding_all rfl

/-! ## Claim C1 -/

/-- **C1.** For the empty input (empty token sequence), `parse` returns an
empty `Root` node with zero statements without error, and the per-statement
evaluation of that result yields no results and is not an error (for any
recursion budget). -/
theorem claim_C1 :
    Parser.parse (Parser.new []) = some (.ok ParseNode.empty_root) ∧
    ParseNode.empty_root = .mk (.Root []) ⟨0, 0⟩ ∧
    ∀ fuel, EvalContext.eval_and_print fuel ParseNode.empty_root =
      some (.ok []) :=
  ⟨rfl, rfl, fun _ => rfl⟩

/-! ## Claim C2 -/

/-- **C2, counterexample.** Parsing `"hello ="` does fail with a single
`UnexpectedEndOfLine`, but its location is `(0, 6)` — the column of the
`=` token itself (its last character) — not `(0, 7)`, the position
immediately after the `=` token. -/
theorem claim_C2_counterexample :
    Parser.parse (Parser.new tokens_hello_eq) =
      some (.error (.MultipleErrors [.UnexpectedEndOfLine ⟨0, 6⟩])) ∧
    Parser.parse (Parser.new tokens_hello_eq) ≠
      some (.error (.MultipleErrors [.UnexpectedEndOfLine ⟨0, 7⟩])) := by
  have heq : Parser.parse (Parser.new tokens_hello_eq) =
      some (.error (.MultipleErrors [.UnexpectedEndOfLine ⟨0, 6⟩])) := rfl
  exact ⟨heq, by rw [heq]; simp⟩

/-- **C2, amended.** Parsing the single-line input `"hello ="` fails with
an `UnexpectedEndOfLine` error whose location is the last character of the
last consumed token — the `=` token itself, i.e. `(0, 6)` (the source
computes `column + len - 1`), not the position after it. -/
theorem claim_C2 :
    Parser.parse (Parser.new tokens_hello_eq) =
      some (.error (.MultipleErrors [.UnexpectedEndOfLine ⟨0, 6⟩])) := rfl

/-! ## Claim C10 -/

/-- When the cursor sees no current token and nothing has been consumed,
`parse_factor` panics (for every fuel): `create_unexpected_error` calls
`last_token`, whose index `position - 1` underflows. -/
theorem parse_factor_none (p : Parser) (hcur : p.current = none)
    (hpos : p.position = 0) : ∀ fuel, Parser.parse_factor fuel p = none := by
  have hcc : ∀ tt adv, p.check_current tt adv = (none, p) := by
    intro tt adv
    simp [Parser.check_current, hcur]
  have herr : Parser.create_unexpected_error p = none := by
    simp [Parser.create_unexpected_error, hcur, Parser.last_token, hpos]
  intro fuel
  match fuel with
  | 0 => rfl
  | Nat.succ 0 =>
    simp [Parser.parse_factor, Parser.parse_number, Parser.parse_identifier,
      Parser.parse_expr_in_parens, hcc, herr]
  | Nat.succ (Nat.succ g) =>
    simp [Parser.parse_factor, Parser.parse_number, Parser.parse_identifier,
      Parser.parse_expr_in_parens, Parser.check_open_paren, hcc, herr]

/-- The panic of `parse_factor` propagates through `parse_line`. -/
theorem parse_line_none (p : Parser) (hcur : p.current = none)
    (hpos : p.position = 0) : ∀ fuel, Parser.parse_line fuel p = none := by
  have hfac := parse_factor_none p hcur hpos
  have hterm : ∀ fuel, Parser.parse_term fuel p = none := by
    intro fuel
    match fuel with
    | 0 => rfl
    | Nat.succ f => simp [Parser.parse_term, hfac]
  have hcomp : ∀ fuel, Parser.parse_comp_term fuel p = none := by
    intro fuel
    match fuel with
    | 0 => rfl
    | Nat.succ f => simp [Parser.parse_comp_term, hterm]
  have hright : ∀ fuel, Parser.parse_right_expr fuel p = none := by
    intro fuel
    match fuel with
    | 0 => rfl
    | Nat.succ f => simp [Parser.parse_right_expr, hcomp]
  have hexpr : ∀ fuel, Parser.parse_expr fuel p = none := by
    intro fuel
    simp [Parser.parse_expr, Parser.parse_identifier, Parser.check_current,
      hcur, hright]
  intro fuel
  simp [Parser.parse_line, hexpr]

/-- **C10.** For every non-empty token sequence whose first token has a
line index greater than `0` (no tokens on line `0`), parsing reaches
`last_token` with `position = 0`, the index `position - 1` underflows, and
parsing panics instead of returning a `Result` — for the canonical fuel of
`parse` and for every per-line loop fuel alike (`none` is the panic
marker). -/
theorem claim_C10 :
    ∀ (t : Token) (ts : List Token) (fuel : Nat), 0 < t.line →
      Parser.parse_go fuel (Parser.new (t :: ts)) = none ∧
      Parser.parse (Parser.new (t :: ts)) = none := by
  intro t ts fuel hline
  have hcur : (Parser.new (t :: ts)).current = none := by
    simp [Parser.current, Parser.look_ahead, Parser.new, Option.filter]
    omega
  have hline0 : ∀ f, Parser.parse_line f (Parser.new (t :: ts)) = none :=
    parse_line_none _ hcur rfl
  have hgo : ∀ f, Parser.parse_go f (Parser.new (t :: ts)) = none := by
    intro f
    match f with
    | 0 => rfl
    | Nat.succ g => simp [Parser.parse_go, hline0]
  refine ⟨hgo fuel, ?_⟩
  have hne : (Parser.new (t :: ts)).input.isEmpty = false := rfl
  simp [Parser.parse, hne, hgo]

/-- Witness for C10: the one-token input `"1"` preceded by an empty line
(the number token lies on line `1`). -/
theorem claim_C10_witness :
    0 < (⟨.Number, "1", 1, 0⟩ : Token).line ∧
    (Parser.parse_go 1 (Parser.new [⟨.Number, "1", 1, 0⟩]) = none ∧
     Parser.parse (Parser.new [⟨.Number, "1", 1, 0⟩]) = none) :=
  ⟨by decide, claim_C10 ⟨.Number, "1", 1, 0⟩ [] 1 (by decide)⟩

/-! ## Claim C3 -/

/-- Once the fold of `Parser::parse` holds an error accumulator, every
later failing line's error is pushed onto it, in order. -/
theorem fold_from_error (results : List (Except ParsingError ParseNode))
    (es : List ParsingError) :
    results.foldl Parser.fold_step (some (.error (.MultipleErrors es))) =
      some (.error (.MultipleErrors (es ++ Parser.errs_of results))) := by
  induction results generalizing es with
  | nil => simp [Parser.errs_of]
  | cons r rest ih =>
    cases r with
    | ok node =>
      simp only [List.foldl, Parser.fold_step, ih, Parser.errs_of,
        List.filterMap_cons]
    | error e =>
      simp only [List.foldl, Parser.fold_step, ih, Parser.errs_of,
        List.filterMap_cons, List.append_assoc, List.singleton_append]

/-- The fold of `Parser::parse`, started on a `Root` accumulator: when at
least one per-line result is an error, the outcome is `MultipleErrors`
holding exactly the errors of the failing lines, in result order. -/
theorem fold_from_root (results : List (Except ParsingError ParseNode))
    (nodes : List ParseNode) (loc : Location)
    (h : Parser.errs_of results ≠ []) :
    results.foldl Parser.fold_step (some (.ok (.mk (.Root nodes) loc))) =
      some (.error (.MultipleErrors (Parser.errs_of results))) := by
  induction results generalizing nodes with
  | nil => simp [Parser.errs_of] at h
  | cons r rest ih =>
    cases r with
    | ok node =>
      have h' : Parser.errs_of rest ≠ [] := by
        simpa [Parser.errs_of, List.filterMap_cons] using h
      simp only [List.foldl, Parser.fold_step, Parser.errs_of,
        List.filterMap_cons]
      exact ih (nodes ++ [node]) h'
    | error e =>
      simp only [List.foldl, Parser.fold_step, Parser.errs_of,
        List.filterMap_cons]
      simpa using fold_from_error rest [e]

/-- **C3.** For every multi-line input in which at least one line fails,
`parse` returns `MultipleErrors` containing exactly one error per failing
line-parse, in the order the lines were parsed; in particular, for
`"hello =\n="`, where two lines fail independently, both errors appear in
source order. -/
theorem claim_C3 :
    (∀ (tokens : List Token) (results : List (Except ParsingError ParseNode)),
      tokens ≠ [] →
      Parser.parse_go (Parser.loop_fuel (Parser.new tokens))
        (Parser.new tokens) = some results →
      Parser.errs_of results ≠ [] →
      Parser.parse (Parser.new tokens) =
        some (.error (.MultipleErrors (Parser.errs_of results)))) ∧
    Parser.parse (Parser.new tokens_two_bad_lines) =
      some (.error (.MultipleErrors
        [.UnexpectedEndOfLine ⟨0, 6⟩, .UnexpectedToken "=" ⟨1, 0⟩])) := by
  refine ⟨?_, rfl⟩
  intro tokens results hne hgo herrs
  have hempty : (Parser.new tokens).input.isEmpty = false := by
    simpa [Parser.new, List.isEmpty_iff] using hne
  rw [Parser.parse, hempty]
  simp only [Bool.false_eq_true, if_false, hgo, Option.bind_some,
    Parser.fold_results, ParseNode.empty_root]
  exact fold_from_root results [] ⟨0, 0⟩ herrs

/-- Witness for C3 at the two-failing-lines input `"hello =\n="`. -/
theorem claim_C3_witness :
    Parser.parse (Parser.new tokens_two_bad_lines) =
      some (.error (.MultipleErrors (Parser.errs_of
        [.error (.UnexpectedEndOfLine ⟨0, 6⟩),
         .error (.UnexpectedToken "=" ⟨1, 0⟩)]))) :=
  claim_C3.1 tokens_two_bad_lines
    [.error (.UnexpectedEndOfLine ⟨0, 6⟩), .error (.UnexpectedToken "=" ⟨1, 0⟩)]
    (by simp [tokens_two_bad_lines]) rfl (List.cons_ne_nil _ _)

/-! ## Claim C4 -/

/-- **C4.** Evaluating an `Assignment` node first evaluates its value
subexpression, then stores the result in the symbol table under the
assigned name — overwriting any prior binding, leaving other names
untouched — and returns that value; concretely, in the session
`"hello = 5.0\n2.3 + hello"` the new binding is visible to the second
statement, which evaluates to `7.3`. -/
theorem claim_C4 :
    (∀ (fuel : Nat) (syms syms1 : SymbolTable) (name other : String)
       (value_node : ParseNode) (loc : Location) (val : ℚ),
      EvalContext.eval fuel syms value_node = some (.ok (val, syms1)) →
      other ≠ name →
      EvalContext.eval (fuel + 1) syms
          (.mk (.Assignment name value_node) loc) =
        some (.ok (val, syms1.insert name val)) ∧
      (syms1.insert name val) name = some val ∧
      (syms1.insert name val) other = syms1 other) ∧
    Parser.parse (Parser.new tokens_assign_then_use) =
      some (.ok root_assign_then_use) ∧
    EvalContext.eval_and_print 100 root_assign_then_use =
      some (.ok [5, 73/10]) := by
  refine ⟨?_, by with_unfolding_all rfl, by with_unfolding_all rfl⟩
  intro fuel syms syms1 name other value_node loc val hval hother
  refine ⟨by simp [EvalContext.eval, hval], ?_, ?_⟩
  · simp [SymbolTable.insert]
  · simp [SymbolTable.insert, hother]

/-- Witness for C4: assigning `5.0` to `hello` in a fresh session. -/
theorem claim_C4_witness :
    EvalContext.eval 1 EvalContext.populated (.mk (.Number 5) ⟨0, 8⟩) =
      some (.ok (5, EvalContext.populated)) ∧
    ("PI" : String) ≠ "hello" ∧
    (EvalContext.eval 2 EvalContext.populated
        (.mk (.Assignment "hello" (.mk (.Number 5) ⟨0, 8⟩)) ⟨0, 6⟩) =
      some (.ok (5, EvalContext.populated.insert "hello" 5)) ∧
     (EvalContext.populated.insert "hello" 5) "hello" = some 5 ∧
     (EvalContext.populated.insert "hello" 5) "PI" =
       EvalContext.populated "PI") :=
  ⟨rfl, by decide,
    claim_C4.1 1 EvalContext.populated EvalContext.populated "hello" "PI"
      (.mk (.Number 5) ⟨0, 8⟩) ⟨0, 6⟩ 5 rfl (by decide)⟩

/-! ## Claim C5 -/

/-- **C5.** Multiplication and division bind tighter than addition and
subtraction, which bind tighter than comparisons; multiplicative and
additive operators associate to the left; consequently
`"(6 * 5) / 4 + 2"` evaluates to `9.5`.  Witnessed by the parse trees of
`"2 + 3 * 4"`, `"2 * 3 + 4"`, `"1 + 2 < 3 + 4"`, `"8 / 4 / 2"`,
`"8 - 4 - 2"` and the full pipeline on `"(6 * 5) / 4 + 2"`. -/
theorem claim_C5 :
    Parser.parse (Parser.new tokens_add_mul) =
      some (.ok (.mk (.Root [
        .mk (.Sum (.mk (.Number 2) ⟨0, 0⟩)
          (.mk (.Multiplication (.mk (.Number 3) ⟨0, 4⟩)
            (.mk (.Number 4) ⟨0, 8⟩)) ⟨0, 6⟩)) ⟨0, 2⟩]) ⟨0, 0⟩)) ∧
    Parser.parse (Parser.new tokens_mul_add) =
      some (.ok (.mk (.Root [
        .mk (.Sum (.mk (.Multiplication (.mk (.Number 2) ⟨0, 0⟩)
            (.mk (.Number 3) ⟨0, 4⟩)) ⟨0, 2⟩)
          (.mk (.Number 4) ⟨0, 8⟩)) ⟨0, 6⟩]) ⟨0, 0⟩)) ∧
    Parser.parse (Parser.new tokens_add_lt_add) =
      some (.ok (.mk (.Root [
        .mk (.LessThan
          (.mk (.Sum (.mk (.Number 1) ⟨0, 0⟩)
            (.mk (.Number 2) ⟨0, 4⟩)) ⟨0, 2⟩)
          (.mk (.Sum (.mk (.Number 3) ⟨0, 8⟩)
            (.mk (.Number 4) ⟨0, 12⟩)) ⟨0, 10⟩)) ⟨0, 6⟩]) ⟨0, 0⟩)) ∧
    Parser.parse (Parser.new tokens_div_div) =
      some (.ok (.mk (.Root [
        .mk (.Division (.mk (.Division (.mk (.Number 8) ⟨0, 0⟩)
            (.mk (.Number 4) ⟨0, 4⟩)) ⟨0, 2⟩)
          (.mk (.Number 2) ⟨0, 8⟩)) ⟨0, 6⟩]) ⟨0, 0⟩)) ∧
    Parser.parse (Parser.new tokens_sub_sub) =
      some (.ok (.mk (.Root [
        .mk (.Substraction (.mk (.Substraction (.mk (.Number 8) ⟨0, 0⟩)
            (.mk (.Number 4) ⟨0, 4⟩)) ⟨0, 2⟩)
          (.mk (.Number 2) ⟨0, 8⟩)) ⟨0, 6⟩]) ⟨0, 0⟩)) ∧
    Parser.parse (Parser.new tokens_precedence) = some (.ok root_precedence) ∧
    EvalContext.eval_and_print 100 root_precedence = some (.ok [19/2]) := by
  refine ⟨?_, ?_, ?_, ?_, ?_, ?_, ?_⟩ <;> with_unfolding_all rfl

/-! ## Claim C6 -/

/-- **C6.** Evaluating an `Identifier` node whose name is absent from the
symbol table fails with `SymbolNotFound` carrying that name and the node's
source location, and never yields a value (such as a default `0`). -/
theorem claim_C6 :
    ∀ (fuel : Nat) (syms syms2 : SymbolTable) (name : String)
      (loc : Location) (q : ℚ),
      syms name = none →
      EvalContext.eval (fuel + 1) syms (.mk (.Identifier name) loc) =
        some (.error (.SymbolNotFound name loc)) ∧
      EvalContext.eval (fuel + 1) syms (.mk (.Identifier name) loc) ≠
        some (.ok (q, syms2)) := by
  intro fuel syms syms2 name loc q habsent
  have h : EvalContext.eval (fuel + 1) syms (.mk (.Identifier name) loc) =
      some (.error (.SymbolNotFound name loc)) := by
    simp [EvalContext.eval, habsent]
  exact ⟨h, by rw [h]; simp⟩

/-- Witness for C6: the fresh session table binds only `PI`, so `hello`
is unbound. -/
theorem claim_C6_witness :
    EvalContext.populated "hello" = none ∧
    (EvalContext.eval 1 EvalContext.populated
        (.mk (.Identifier "hello") ⟨1, 2⟩) =
      some (.error (.SymbolNotFound "hello" ⟨1, 2⟩)) ∧
     EvalContext.eval 1 EvalContext.populated
        (.mk (.Identifier "hello") ⟨1, 2⟩) ≠
      some (.ok (0, EvalContext.populated))) :=
  ⟨by decide,
    claim_C6 0 EvalContext.populated EvalContext.populated "hello" ⟨1, 2⟩ 0
      (by decide)⟩

/-! ## Claim C7 -/

set_option maxRecDepth 4000 in
/-- **C7.** Evaluating an `Equal` node evaluates both children and yields
`1.0` exactly when the absolute difference of the two results is below
machine epsilon (`2⁻⁵²`), rather than exact equality: two literals that
differ by `2⁻⁵³` still compare equal, and `"3.2 == 3.2"` evaluates to
`1.0`. -/
theorem claim_C7 :
    (∀ (fuel : Nat) (syms syms1 syms2 : SymbolTable) (l r : ParseNode)
       (loc : Location) (lv rv : ℚ),
      EvalContext.eval fuel syms l = some (.ok (lv, syms1)) →
      EvalContext.eval fuel syms1 r = some (.ok (rv, syms2)) →
      EvalContext.eval (fuel + 2) syms (.mk (.Equal l r) loc) =
        some (.ok ((if |lv - rv| < EPSILON then 1 else 0), syms2))) ∧
    (1 : ℚ) ≠ 1 + 1/2^53 ∧
    EvalContext.eval_and_print 100 root_eq_close = some (.ok [1]) ∧
    Parser.parse (Parser.new tokens_eq_same) = some (.ok root_eq_same) ∧
    EvalContext.eval_and_print 100 root_eq_same = some (.ok [1]) := by
  refine ⟨?_, by norm_num, by with_unfolding_all rfl,
    by with_unfolding_all rfl, by with_unfolding_all rfl⟩
  intro fuel syms syms1 syms2 l r loc lv rv h1 h2
  simp [EvalContext.eval, EvalContext.perform_comparison_op, h1, h2]

/-- Witness for C7 at `3.2 == 3.2`. -/
theorem claim_C7_witness :
    EvalContext.eval 1 EvalContext.populated (.mk (.Number (16/5)) ⟨0, 0⟩) =
      some (.ok (16/5, EvalContext.populated)) ∧
    EvalContext.eval 1 EvalContext.populated (.mk (.Number (16/5)) ⟨0, 7⟩) =
      some (.ok (16/5, EvalContext.populated)) ∧
    EvalContext.eval 3 EvalContext.populated
        (.mk (.Equal (.mk (.Number (16/5)) ⟨0, 0⟩)
          (.mk (.Number (16/5)) ⟨0, 7⟩)) ⟨0, 4⟩) =
      some (.ok ((if |(16/5 : ℚ) - 16/5| < EPSILON then 1 else 0),
        EvalContext.populated)) :=
  ⟨rfl, rfl,
    claim_C7.1 1 EvalContext.populated EvalContext.populated
      EvalContext.populated (.mk (.Number (16/5)) ⟨0, 0⟩)
      (.mk (.Number (16/5)) ⟨0, 7⟩) ⟨0, 4⟩ (16/5) (16/5) rfl rfl⟩

/-! ## Claim C8 -/

/-- **C8.** For every comparison node (`Gt`, `Ge`, `Lt`, `Le`, `Eq`) whose
children both evaluate successfully, evaluation yields exactly `1.0` when
the comparison holds and exactly `0.0` otherwise — and nothing else, as
the result is literally an if-then-else between `1` and `0`; concretely
`"3.2 > 2.0"` → `1.0` and `"3.2 > 5.0"` → `0.0`. -/
theorem claim_C8 :
    (∀ (fuel : Nat) (syms syms1 syms2 : SymbolTable) (l r : ParseNode)
       (loc : Location) (lv rv : ℚ),
      EvalContext.eval fuel syms l = some (.ok (lv, syms1)) →
      EvalContext.eval fuel syms1 r = some (.ok (rv, syms2)) →
      (EvalContext.eval (fuel + 2) syms (.mk (.GreaterThan l r) loc) =
        some (.ok ((if lv > rv then 1 else 0), syms2))) ∧
      (EvalContext.eval (fuel + 2) syms (.mk (.GreaterThanOrEqual l r) loc) =
        some (.ok ((if lv ≥ rv then 1 else 0), syms2))) ∧
      (EvalContext.eval (fuel + 2) syms (.mk (.LessThan l r) loc) =
        some (.ok ((if lv < rv then 1 else 0), syms2))) ∧
      (EvalContext.eval (fuel + 2) syms (.mk (.LessThanOrEqual l r) loc) =
        some (.ok ((if lv ≤ rv then 1 else 0), syms2))) ∧
      (EvalContext.eval (fuel + 2) syms (.mk (.Equal l r) loc) =
        some (.ok ((if |lv - rv| < EPSILON then 1 else 0), syms2)))) ∧
    Parser.parse (Parser.new tokens_gt_true) = some (.ok root_gt_true) ∧
    EvalContext.eval_and_print 100 root_gt_true = some (.ok [1]) ∧
    Parser.parse (Parser.new tokens_gt_false) = some (.ok root_gt_false) ∧
    EvalContext.eval_and_print 100 root_gt_false = some (.ok [0]) := by
  refine ⟨?_, by with_unfolding_all rfl, by with_unfolding_all rfl,
    by with_unfolding_all rfl, by with_unfolding_all rfl⟩
  intro fuel syms syms1 syms2 l r loc lv rv h1 h2
  refine ⟨?_, ?_, ?_, ?_, ?_⟩ <;>
    simp [EvalContext.eval, EvalContext.perform_comparison_op, h1, h2]

/-- Witness for C8 at `3.2 > 2.0`. -/
theorem claim_C8_witness :
    EvalContext.eval 1 EvalContext.populated (.mk (.Number (16/5)) ⟨0, 0⟩) =
      some (.ok (16/5, EvalContext.populated)) ∧
    EvalContext.eval 1 EvalContext.populated (.mk (.Number 2) ⟨0, 6⟩) =
      some (.ok (2, EvalContext.populated)) ∧
    EvalContext.eval 3 EvalContext.populated
        (.mk (.GreaterThan (.mk (.Number (16/5)) ⟨0, 0⟩)
          (.mk (.Number 2) ⟨0, 6⟩)) ⟨0, 4⟩) =
      some (.ok ((if (16/5 : ℚ) > 2 then 1 else 0),
        EvalContext.populated)) :=
  ⟨rfl, rfl,
    (claim_C8.1 1 EvalContext.populated EvalContext.populated
      EvalContext.populated (.mk (.Number (16/5)) ⟨0, 0⟩)
      (.mk (.Number 2) ⟨0, 6⟩) ⟨0, 4⟩ (16/5) 2 rfl rfl).1⟩

/-! ## Claim C9 -/

/-- The current token of a cursor on line `0` is the head of the remaining
input when that head lies on line `0`. -/
theorem current_of_drop (input : List Token) (pos : Nat) (tk : Token)
    (rest : List Token) (h : input.drop pos = tk :: rest)
    (hline : tk.line = 0) : Parser.current ⟨input, pos, 0⟩ = some tk := by
  have h0 := List.getElem?_drop input pos 0
  rw [h] at h0
  have hg : input[pos]? = some tk := by simpa using h0.symm
  simp [Parser.current, Parser.look_ahead, hg, Option.filter, hline]

/-- With no remaining input there is no current token. -/
theorem current_of_drop_nil (input : List Token) (pos : Nat)
    (h : input.drop pos = []) (ln : Nat) :
    Parser.current ⟨input, pos, ln⟩ = none := by
  have h0 := List.getElem?_drop input pos 0
  rw [h] at h0
  have hg : input[pos]? = none := by simpa using h0.symm
  simp [Parser.current, Parser.look_ahead, hg]

/-- When the remaining input is a run of closing parentheses, the current
token is either absent or a closing parenthesis. -/
theorem current_replicate_rp (input : List Token) (pos j : Nat)
    (h : input.drop pos = List.replicate j rpTok) :
    Parser.current ⟨input, pos, 0⟩ = none ∨
      Parser.current ⟨input, pos, 0⟩ = some rpTok := by
  cases j with
  | zero => exact Or.inl (current_of_drop_nil input pos (by simpa using h) 0)
  | succ j' =>
    exact Or.inr (current_of_drop input pos rpTok _
      (by rw [h, List.replicate_succ]) rfl)

/-- A current token that is absent or a closing parenthesis matches no
operator list that excludes `RightParenthesis`. -/
theorem check_current_in_list_stop (p : Parser) (tts : List TokenType)
    (adv : Bool) (hc : p.current = none ∨ p.current = some rpTok)
    (hnot : TokenType.RightParenthesis ∉ tts) :
    p.check_current_in_list tts adv = (none, p) := by
  rcases hc with hc | hc
  · simp [Parser.check_current_in_list, hc]
  · simp [Parser.check_current_in_list, hc, rpTok, hnot]

/-- The `*`/`/` loop of `parse_term` stops at a closing parenthesis or at
the end of the line. -/
theorem parse_term_go_stop (p : Parser)
    (hc : p.current = none ∨ p.current = some rpTok) (fuel : Nat)
    (node : ParseNode) :
    Parser.parse_term_go (fuel + 1) node p = some (.ok node, p) := by
  have h := check_current_in_list_stop p [TokenType.Times, TokenType.Div]
    true hc (by simp)
  simp [Parser.parse_term_go, h]

/-- The `+`/`-` loop of `parse_comp_term` stops at a closing parenthesis
or at the end of the line. -/
theorem parse_comp_term_go_stop (p : Parser)
    (hc : p.current = none ∨ p.current = some rpTok) (fuel : Nat)
    (node : ParseNode) :
    Parser.parse_comp_term_go (fuel + 1) node p = some (.ok node, p) := by
  have h := check_current_in_list_stop p [TokenType.Plus, TokenType.Minus]
    true hc (by simp)
  simp [Parser.parse_comp_term_go, h]

/-- `parse_factor` on a `Number`/`Identifier` token yields that token's
node and consumes exactly the token. -/
theorem parse_factor_tok (input : List Token) (pos : Nat) (t : Token)
    (fnode : ParseNode) (rest : List Token) (fuel : Nat)
    (h : input.drop pos = t :: rest) (hline : t.line = 0)
    (hnode : Parser.token_to_node t = some fnode)
    (htt : t.ttype = .Number ∨ t.ttype = .Identifier) :
    Parser.parse_factor (fuel + 1) ⟨input, pos, 0⟩ =
      some (.ok fnode, ⟨input, pos + 1, 0⟩) := by
  have hcur : Parser.current ⟨input, pos, 0⟩ = some t :=
    current_of_drop input pos t rest h hline
  rcases htt with htt | htt
  · simp [Parser.parse_factor, Parser.parse_number, Parser.check_current,
      hcur, htt, hnode, Parser.advance, Parser.move_forward]
  · simp [Parser.parse_factor, Parser.parse_number, Parser.parse_identifier,
      Parser.check_current, hcur, htt, hnode, Parser.advance,
      Parser.move_forward]

/-- Core of C9: a factor token wrapped in `m` opening parentheses followed
by at least `m` closing ones parses (as a right-expression) to the
factor's node, consuming the `m` matched pairs and the factor. -/
theorem parse_right_expr_parens :
    ∀ (m fuel j : Nat) (input : List Token) (pos : Nat) (t : Token)
      (fnode : ParseNode),
      5 * m + 4 ≤ fuel →
      input.drop pos =
        List.replicate m lpTok ++ t :: List.replicate j rpTok →
      m ≤ j → t.line = 0 →
      Parser.token_to_node t = some fnode →
      (t.ttype = .Number ∨ t.ttype = .Identifier) →
      Parser.parse_right_expr fuel ⟨input, pos, 0⟩ =
        some (.ok fnode, ⟨input, pos + (2 * m + 1), 0⟩) := by
  intro m
  induction m with
  | zero =>
    intro fuel j input pos t fnode hfuel hdrop hmj hline hnode htt
    obtain ⟨k, rfl⟩ : ∃ k, fuel = k + 4 := ⟨fuel - 4, by omega⟩
    rw [List.replicate_zero, List.nil_append] at hdrop
    have hfac := parse_factor_tok input pos t fnode _ k hdrop hline hnode htt
    have hrest : input.drop (pos + 1) = List.replicate j rpTok := by
      rw [← List.drop_drop 1 pos input, hdrop]
      simp
    have hc := current_replicate_rp input (pos + 1) j hrest
    have hstop1 : Parser.parse_term_go (k + 1) fnode ⟨input, pos + 1, 0⟩ =
        some (.ok fnode, ⟨input, pos + 1, 0⟩) :=
      parse_term_go_stop _ hc k fnode
    have hstop2 : Parser.parse_comp_term_go (k + 2) fnode ⟨input, pos + 1, 0⟩ =
        some (.ok fnode, ⟨input, pos + 1, 0⟩) :=
      parse_comp_term_go_stop _ hc (k + 1) fnode
    have hstop3 := check_current_in_list_stop ⟨input, pos + 1, 0⟩
      [TokenType.GreaterThan, TokenType.GreaterThanOrEqual,
       TokenType.LessThan, TokenType.LessThanOrEqual, TokenType.Equal]
      true hc (by simp)
    simp [Parser.parse_right_expr, Parser.parse_comp_term, Parser.parse_term,
      hfac, hstop1, hstop2, hstop3]
  | succ m ih =>
    intro fuel j input pos t fnode hfuel hdrop hmj hline hnode htt
    obtain ⟨k, rfl⟩ : ∃ k, fuel = k + 5 := ⟨fuel - 5, by omega⟩
    have hdrop' : input.drop pos =
        lpTok :: (List.replicate m lpTok ++ t :: List.replicate j rpTok) := by
      rw [hdrop, List.replicate_succ, List.cons_append]
    have hcur : Parser.current ⟨input, pos, 0⟩ = some lpTok :=
      current_of_drop input pos lpTok _ hdrop' rfl
    have hnext : input.drop (pos + 1) =
        List.replicate m lpTok ++ t :: List.replicate j rpTok := by
      rw [← List.drop_drop 1 pos input, hdrop']
      simp
    have hIH := ih k j input (pos + 1) t fnode (by omega) hnext (by omega)
      hline hnode htt
    have hdrop2 : input.drop (pos + 1 + (2 * m + 1)) =
        List.replicate (j - m) rpTok := by
      rw [← List.drop_drop (2 * m + 1) (pos + 1) input, hnext,
        show List.replicate m lpTok ++ t :: List.replicate j rpTok =
          (List.replicate m lpTok ++ [t]) ++ List.replicate j rpTok by simp,
        show (2 * m + 1 : Nat) = (List.replicate m lpTok ++ [t]).length + m by
          simp only [List.length_append, List.length_replicate,
            List.length_cons, List.length_nil]
          omega,
        List.drop_append, List.drop_replicate]
    obtain ⟨jm, hjm⟩ : ∃ jm, j - m = jm + 1 := ⟨j - m - 1, by omega⟩
    have hdrop2' : input.drop (pos + 1 + (2 * m + 1)) =
        rpTok :: List.replicate jm rpTok := by
      rw [hdrop2, hjm, List.replicate_succ]
    have hcur2 : Parser.current ⟨input, pos + 1 + (2 * m + 1), 0⟩ =
        some rpTok :=
      current_of_drop input _ rpTok _ hdrop2' rfl
    have hdrop3 : input.drop (pos + 1 + (2 * m + 1) + 1) =
        List.replicate jm rpTok := by
      rw [← List.drop_drop 1 (pos + 1 + (2 * m + 1)) input, hdrop2']
      simp
    have hc3 := current_replicate_rp input (pos + 1 + (2 * m + 1) + 1) jm
      hdrop3
    have hstop1 : Parser.parse_term_go (k + 2) fnode
        ⟨input, pos + 1 + (2 * m + 1) + 1, 0⟩ =
        some (.ok fnode, ⟨input, pos + 1 + (2 * m + 1) + 1, 0⟩) :=
      parse_term_go_stop _ hc3 (k + 1) fnode
    have hstop2 : Parser.parse_comp_term_go (k + 3) fnode
        ⟨input, pos + 1 + (2 * m + 1) + 1, 0⟩ =
        some (.ok fnode, ⟨input, pos + 1 + (2 * m + 1) + 1, 0⟩) :=
      parse_comp_term_go_stop _ hc3 (k + 2) fnode
    have hstop3 := check_current_in_list_stop
      ⟨input, pos + 1 + (2 * m + 1) + 1, 0⟩
      [TokenType.GreaterThan, TokenType.GreaterThanOrEqual,
       TokenType.LessThan, TokenType.LessThanOrEqual, TokenType.Equal]
      true hc3 (by simp)
    rw [show pos + (2 * (m + 1) + 1) = pos + 1 + (2 * m + 1) + 1 by omega]
    simp [Parser.parse_right_expr, Parser.parse_comp_term, Parser.parse_term,
      Parser.parse_factor, Parser.parse_number, Parser.parse_identifier,
      Parser.check_current, hcur, lpTok, Parser.parse_expr_in_parens,
      Parser.check_open_paren, Parser.advance, Parser.move_forward, hIH,
      Parser.expect_close_paren, hcur2, rpTok, hstop1, hstop2, hstop3]

/-- **C9.** For every nesting depth `n ≥ 0`, a line consisting of a single
factor token wrapped in `n` matched parenthesis pairs parses to that
factor's own node — so parenthesization of any depth leaves the evaluated
value unchanged; concretely `"(((((3)))))"` parses to the literal `3` and
evaluates to `3.0`. -/
theorem claim_C9 :
    (∀ (n : Nat) (t : Token) (fnode : ParseNode),
      t.line = 0 →
      Parser.token_to_node t = some fnode →
      (t.ttype = .Number ∨ t.ttype = .Identifier) →
      Parser.parse (Parser.new (paren_wrap n t)) =
        some (.ok (.mk (.Root [fnode]) ⟨0, 0⟩))) ∧
    Parser.parse (Parser.new tokens_deep_parens) =
      some (.ok (.mk (.Root [.mk (.Number 3) ⟨0, 5⟩]) ⟨0, 0⟩)) ∧
    EvalContext.eval_and_print 100
        (.mk (.Root [.mk (.Number 3) ⟨0, 5⟩]) ⟨0, 0⟩) = some (.ok [3]) := by
  refine ⟨?_, by with_unfolding_all rfl, by with_unfolding_all rfl⟩
  intro n t fnode hline hnode htt
  have hlen : (paren_wrap n t).length = 2 * n + 1 := by
    simp [paren_wrap]
    omega
  have hwrap : (paren_wrap n t).drop 0 =
      List.replicate n lpTok ++ t :: List.replicate n rpTok := by
    simp [paren_wrap]
  have hre : Parser.parse_right_expr
      (Parser.expr_fuel (Parser.new (paren_wrap n t)))
      ⟨paren_wrap n t, 0, 0⟩ =
      some (.ok fnode, ⟨paren_wrap n t, 2 * n + 1, 0⟩) := by
    have h := parse_right_expr_parens n
      (Parser.expr_fuel (Parser.new (paren_wrap n t)))
      n (paren_wrap n t) 0 t fnode
      (by simp [Parser.expr_fuel, Parser.new, hlen]; omega) hwrap le_rfl hline
      hnode htt
    simpa using h
  have hexpr : Parser.parse_expr
      (Parser.expr_fuel (Parser.new (paren_wrap n t)))
      (Parser.new (paren_wrap n t)) =
      some (.ok fnode, ⟨paren_wrap n t, 2 * n + 1, 0⟩) := by
    cases n with
    | zero =>
      have hcur : Parser.current (Parser.new (paren_wrap 0 t)) = some t :=
        current_of_drop (paren_wrap 0 t) 0 t [] (by simp [paren_wrap]) hline
      rcases htt with htt | htt
      · simpa [Parser.parse_expr, Parser.parse_identifier,
          Parser.check_current, hcur, htt] using hre
      · have hahead :
            Parser.check_assignment_op (Parser.new (paren_wrap 0 t)) =
              none := by
          have hg : (paren_wrap 0 t)[1]? = none :=
            List.getElem?_eq_none (by simp [paren_wrap])
          simp [Parser.check_assignment_op, Parser.check_ahead,
            Parser.look_ahead, Parser.new, hg]
        simpa [Parser.parse_expr, Parser.parse_identifier,
          Parser.check_current, hcur, htt, hnode, hahead] using hre
    | succ n' =>
      have hcur : Parser.current (Parser.new (paren_wrap (n' + 1) t)) =
          some lpTok :=
        current_of_drop (paren_wrap (n' + 1) t) 0 lpTok _
          (by simpa [List.replicate_succ, List.cons_append] using hwrap) rfl
      simpa [Parser.parse_expr, Parser.parse_identifier,
        Parser.check_current, hcur, lpTok] using hre
  have hspent : (paren_wrap n t)[2 * n + 1]? = none :=
    List.getElem?_eq_none (by omega)
  have hline1 : Parser.parse_line
      (Parser.expr_fuel (Parser.new (paren_wrap n t)))
      (Parser.new (paren_wrap n t)) =
      some (.ok fnode, ⟨paren_wrap n t, 2 * n + 1, 1⟩) := by
    have hcur1 : Parser.current ⟨paren_wrap n t, 2 * n + 1, 0⟩ = none := by
      simp [Parser.current, Parser.look_ahead, hspent]
    simp [Parser.parse_line, hexpr, hcur1]
  have hne : (Parser.new (paren_wrap n t)).input.isEmpty = false := by
    cases hpw : paren_wrap n t with
    | nil =>
      have := congrArg List.length hpw
      rw [hlen] at this
      simp at this
    | cons a l => simp [Parser.new, hpw]
  obtain ⟨L, hL⟩ :
      ∃ L, Parser.loop_fuel (Parser.new (paren_wrap n t)) = L + 1 :=
    ⟨_, rfl⟩
  have hdone : 2 * n + 1 ≥ (paren_wrap n t).length := by omega
  rw [Parser.parse, hne]
  simp only [Bool.false_eq_true, if_false, hL, Parser.parse_go, hline1]
  rw [if_pos hdone]
  simp [Parser.fold_results, Parser.fold_step, ParseNode.empty_root]

/-- Witness for C9: the identifier factor `x` wrapped in two parenthesis
pairs, `"((x))"`. -/
theorem claim_C9_witness :
    (⟨.Identifier, "x", 0, 2⟩ : Token).line = 0 ∧
    Parser.token_to_node ⟨.Identifier, "x", 0, 2⟩ =
      some (.mk (.Identifier "x") ⟨0, 2⟩) ∧
    ((⟨.Identifier, "x", 0, 2⟩ : Token).ttype = .Number ∨
      (⟨.Identifier, "x", 0, 2⟩ : Token).ttype = .Identifier) ∧
    Parser.parse (Parser.new (paren_wrap 2 ⟨.Identifier, "x", 0, 2⟩)) =
      some (.ok (.mk (.Root [.mk (.Identifier "x") ⟨0, 2⟩]) ⟨0, 0⟩)) :=
  ⟨rfl, rfl, Or.inr rfl,
    claim_C9.1 2 ⟨.Identifier, "x", 0, 2⟩ (.mk (.Identifier "x") ⟨0, 2⟩)
      rfl rfl (Or.inr rfl)⟩

end SimpleLexer
